import Mathlib

/-!
# Stepup Chess Platform — verification of the backend core

Shallow embedding of the Cloud Functions backend (`functions/src`): the cost
calculator (`utils/cost-calculator.ts` / `costCalculator.ts`), preset
resolution (`utils/presets.ts`), move validation (`services/game.service.ts`),
the callable handlers (`functions/game.functions.ts`,
`functions/steps.functions.ts`), the step-balance repository
(`repositories/step.repository.ts`) and the leaderboard trigger
(`functions/leaderboard.functions.ts` + `services/leaderboard.service.ts`).

Modelling conventions:
- The RTDB/Firestore dual store is modelled as one logical store
  (`ServerState`): a map from game id to game record, a per-(game, uid)
  step-balance map defaulting to 0, and the `userActiveGame` pointer map.
- A FEN string is modelled as a record `Fen`: the piece-placement field as an
  assoc list square → piece, the active-color field (field 2 of the FEN,
  the part `makeMove` rewrites via `split(' ')`), and the remaining fields
  as an opaque string.
- chess.js is the external move-legality oracle of the design (§6): its
  board-read/remove/put primitives are modelled over `Fen`; ordinary move
  validation (`chess.move`) is an oracle parameter
  `ChessOracle : Fen → from → to → promotion? → Option Fen`.
- TypeScript `throw new HttpsError(...)` is `Except HttpsError`; a plain
  `throw new Error` (programmer error) is the `.internal` constructor.
- The TS cast `game.costModeName as CostMode` is modelled by typing the
  field with the declared `CostMode` type.
-/

namespace StepupChess

/-- `OnlineGameStatus` from `types.ts`. -/
inductive OnlineGameStatus where
  | waiting
  | active
  | completed
  | abandoned
deriving DecidableEq, Repr

/-- `GameOutcome` from `types.ts` (`'win' | 'draw' | 'abandoned'`). -/
inductive GameOutcome where
  | win
  | draw
  | abandoned
deriving DecidableEq, Repr

/-- `CostMode` from `types.ts`. -/
inductive CostMode where
  | baseDistance
  | distance
  | fixed
deriving DecidableEq, Repr

/-- chess.js piece-type character, `PieceType` from `types.ts`. -/
inductive PieceType where
  | p
  | n
  | b
  | r
  | q
  | k
deriving DecidableEq, Repr

/-- chess.js piece color (`'w' | 'b'`). -/
inductive Color where
  | white
  | black
deriving DecidableEq, Repr

/-- A chess.js piece `{ color, type }`. -/
structure Piece where
  color : Color
  ptype : PieceType
deriving DecidableEq, Repr

/-- A FEN string, split into the fields the backend manipulates:
piece placement (assoc list square → piece), the active color
(field 2, the one the free-play mechanic rewrites), and the
remaining space-separated fields kept opaque. -/
structure Fen where
  placement : List (String × Piece)
  turn : Color
  rest : String
deriving DecidableEq, Repr

/-- `StepCostPreset` from `types.ts`. -/
structure StepCostPreset where
  name : String
  pawn : Nat
  knight : Nat
  bishop : Nat
  rook : Nat
  queen : Nat
  king : Nat
  distanceCost : Nat
deriving DecidableEq, Repr

/-- `OnlineGame` from `types.ts` (with the `outcome`/`winnerId` optionals of
the extended record written by `endGame`). -/
structure OnlineGame where
  id : String
  whitePlayerId : String
  blackPlayerId : Option String
  fen : Fen
  moveHistory : List String
  status : OnlineGameStatus
  presetName : String
  costModeName : CostMode
  createdAt : String
  outcome : Option GameOutcome := none
  winnerId : Option String := none
deriving DecidableEq, Repr

/-- `HttpsError` codes used by the handlers; `.internal` stands for a plain
`throw new Error` (programmer error, not a user-facing HttpsError). -/
inductive HttpsError where
  | unauthenticated (msg : String)
  | invalidArgument (msg : String)
  | failedPrecondition (msg : String)
  | permissionDenied (msg : String)
  | notFound (msg : String)
  | internal (msg : String)
deriving DecidableEq, Repr

-- ─── Cost calculator (`utils/cost-calculator.ts`) ────────────────────────────

/-- `baseCostFor` from the cost calculator: fixed per-piece-kind lookup. -/
def baseCostFor (preset : StepCostPreset) (piece : PieceType) : Nat :=
  match piece with
  | .p => preset.pawn
  | .n => preset.knight
  | .b => preset.bishop
  | .r => preset.rook
  | .q => preset.queen
  | .k => preset.king

/-- `s.charCodeAt(i)` on a square string such as `"e2"` (squares always have
two characters; out-of-range access cannot occur on real squares). -/
def charCodeAt (s : String) (i : Nat) : Int :=
  ((s.data.getD i (Char.ofNat 0)).toNat : Int)

/-- `moveDistance` from the cost calculator: Manhattan distance for knights,
Chebyshev distance for every other piece. -/
def moveDistance (piece : PieceType) (fromSq toSq : String) : Nat :=
  let dx := (charCodeAt toSq 0 - charCodeAt fromSq 0).natAbs
  let dy := (charCodeAt toSq 1 - charCodeAt fromSq 1).natAbs
  if piece = PieceType.n then dx + dy else max dx dy

/-- `calculateCost` from the cost calculator. -/
def calculateCost (preset : StepCostPreset) (costMode : CostMode)
    (piece : PieceType) (fromSq toSq : String) (capturingKing : Bool) : Nat :=
  match costMode with
  | .baseDistance =>
      baseCostFor preset piece + moveDistance piece fromSq toSq * preset.distanceCost
  | .distance =>
      moveDistance piece fromSq toSq * preset.distanceCost
  | .fixed =>
      let base := baseCostFor preset piece
      if capturingKing then base * 2 else base

-- ─── Presets (`utils/presets.ts` + Remote Config) ────────────────────────────

/-- The seven numbers stored as the JSON object under a preset's Remote
Config key (the parse of the JSON string is modelled as this record). -/
structure PresetValues where
  pawn : Nat
  knight : Nat
  bishop : Nat
  rook : Nat
  queen : Nat
  king : Nat
  distanceCost : Nat
deriving DecidableEq, Repr

/-- The evaluated Remote Config template (`getConfigAsync()` result): the
three preset entries keyed by `PRESET_CONFIG_KEYS`, plus the anti-cheat cap
`max_step_delta_per_call`. -/
structure RemoteConfig where
  presetQuick : PresetValues
  presetNormal : PresetValues
  presetMarathon : PresetValues
  maxStepDeltaPerCall : Int
deriving DecidableEq, Repr

/-- `KNOWN_PRESET_NAMES` from `utils/presets.ts`. -/
def KNOWN_PRESET_NAMES : List String := ["Quick", "Normal", "Marathon"]

/-- `getPreset(config, name)` from `utils/presets.ts`: maps the preset name
to its Remote Config key, reads the move costs from the config in effect at
call time, and spreads them with the name. `none` models the
`throw new Error` for an unknown name. -/
def getPreset (config : RemoteConfig) (name : String) : Option StepCostPreset :=
  if name = "Quick" then
    some ⟨name, config.presetQuick.pawn, config.presetQuick.knight,
      config.presetQuick.bishop, config.presetQuick.rook, config.presetQuick.queen,
      config.presetQuick.king, config.presetQuick.distanceCost⟩
  else if name = "Normal" then
    some ⟨name, config.presetNormal.pawn, config.presetNormal.knight,
      config.presetNormal.bishop, config.presetNormal.rook, config.presetNormal.queen,
      config.presetNormal.king, config.presetNormal.distanceCost⟩
  else if name = "Marathon" then
    some ⟨name, config.presetMarathon.pawn, config.presetMarathon.knight,
      config.presetMarathon.bishop, config.presetMarathon.rook, config.presetMarathon.queen,
      config.presetMarathon.king, config.presetMarathon.distanceCost⟩
  else none

-- ─── chess.js board primitives over the Fen model ────────────────────────────

/-- `chess.get(square)`: the piece on a square, if any. -/
def chessGet (fen : Fen) (sq : String) : Option Piece :=
  (fen.placement.find? (fun e => e.1 = sq)).map (fun e => e.2)

/-- `chess.remove(square)`: delete whatever sits on the square. -/
def chessRemove (fen : Fen) (sq : String) : Fen :=
  { fen with placement := fen.placement.filter (fun e => e.1 ≠ sq) }

/-- `chess.put(piece, square)`: place a piece, replacing any occupant. -/
def chessPut (fen : Fen) (piece : Piece) (sq : String) : Fen :=
  { fen with placement := (sq, piece) :: fen.placement.filter (fun e => e.1 ≠ sq) }

/-- The external move-legality oracle (`chess.move` of chess.js, §6 of the
design): board, origin, destination, optional promotion → new board, or
`none` for a rejected move. -/
def ChessOracle : Type :=
  Fen → String → String → Option String → Option Fen

-- ─── Move validation (`services/game.service.ts`) ────────────────────────────

/-- Result record of `validateAndApplyMove`. -/
structure MoveResult where
  newFen : Fen
  cost : Nat
  moveRecord : String
deriving DecidableEq, Repr

/-- The caller's color: white iff the caller is the white player
(`uid === game.whitePlayerId ? 'w' : 'b'`). -/
def playerColorOf (game : OnlineGame) (uid : String) : Color :=
  if uid = game.whitePlayerId then Color.white else Color.black

/-- The free-play turn alignment: rewrite FEN field 2 to the caller's color
when it differs (`if (fenParts[1] !== playerColor) fenParts[1] = playerColor`). -/
def alignTurn (fen : Fen) (c : Color) : Fen :=
  if fen.turn ≠ c then { fen with turn := c } else fen

/-- `isPromotion` of `validateAndApplyMove`: the moving piece is a pawn and
the destination rank character is `'8'` or `'1'`. -/
def isPromotionMove (ptype : PieceType) (toSq : String) : Bool :=
  ptype = PieceType.p && (toSq.data.get? 1 = some '8' || toSq.data.get? 1 = some '1')

/-- `promotionPiece` of `validateAndApplyMove`:
`promotion?.toLowerCase() ?? (isPromotion ? 'q' : undefined)`. -/
def resolvePromotion (ptype : PieceType) (toSq : String)
    (promotion : Option String) : Option String :=
  match promotion with
  | some pr => some pr.toLower
  | none => if isPromotionMove ptype toSq then some "q" else none

/-- `validateAndApplyMove` from `services/game.service.ts`.

King-capture branch: read the attacker off the unmodified board, fail if the
origin is empty, then `remove(to)`, `remove(from)`, `put(attacker, to)` —
the oracle is never consulted. Normal branch: align the turn to the caller,
fail if the origin is empty, resolve the promotion default, and submit the
move to the oracle. Either way the cost comes from `calculateCost` and the
move record is `from + to + (promotion ?? '')`. -/
def validateAndApplyMove (oracle : ChessOracle) (game : OnlineGame)
    (uid fromSq toSq : String) (promotion : Option String)
    (capturingKing : Bool) (preset : StepCostPreset) :
    Except HttpsError MoveResult :=
  if capturingKing then
    match chessGet game.fen fromSq with
    | none => .error (.invalidArgument ("No piece at " ++ fromSq))
    | some attacker =>
      let newFen := chessPut (chessRemove (chessRemove game.fen toSq) fromSq) attacker toSq
      let cost := calculateCost preset game.costModeName attacker.ptype fromSq toSq true
      .ok ⟨newFen, cost, fromSq ++ toSq ++ promotion.getD ""⟩
  else
    let aligned := alignTurn game.fen (playerColorOf game uid)
    match chessGet aligned fromSq with
    | none => .error (.invalidArgument ("No piece at " ++ fromSq))
    | some boardPiece =>
      match oracle aligned fromSq toSq (resolvePromotion boardPiece.ptype toSq promotion) with
      | none => .error (.invalidArgument ("Illegal move: " ++ fromSq ++ "-" ++ toSq))
      | some newFen =>
        let cost := calculateCost preset game.costModeName boardPiece.ptype fromSq toSq false
        .ok ⟨newFen, cost, fromSq ++ toSq ++ promotion.getD ""⟩

-- ─── Server state (the RTDB/Firestore store, as one logical store) ───────────

/-- The durable store the handlers read and write: game records by id, the
per-(gameId, uid) step balances under `games/{gameId}/steps/{uid}/balance`
(absent = 0), and the `userActiveGame/{uid}` pointers. -/
structure ServerState where
  games : String → Option OnlineGame
  balances : String → String → Nat
  userActiveGame : String → Option String

/-- Point update of a string-keyed map. -/
def updateFun {α : Type} (f : String → α) (k : String) (v : α) : String → α :=
  fun x => if x = k then v else f x

/-- `getStepBalance` from `repositories/step.repository.ts`: one RTDB `get`
of `games/{gameId}/steps/{uid}/balance`, defaulting to 0. -/
def getStepBalance (st : ServerState) (gameId uid : String) : Nat :=
  st.balances gameId uid

/-- `setStepBalance` from `repositories/step.repository.ts`: one blind RTDB
`set` of the balance cell (no read, no transaction). -/
def setStepBalance (st : ServerState) (gameId uid : String) (balance : Nat) :
    ServerState :=
  { st with balances :=
      fun g => if g = gameId then updateFun (st.balances g) uid balance else st.balances g }

/-- `atomicIncrementStepBalance` from `repositories/step.repository.ts`: a
single RTDB transaction `(current ?? 0) + delta`, returning the new value. -/
def atomicIncrementStepBalance (st : ServerState) (gameId uid : String)
    (delta : Nat) : ServerState × Nat :=
  let newBalance := st.balances gameId uid + delta
  (setStepBalance st gameId uid newBalance, newBalance)

/-- Response record of a successful `makeMove` call. -/
structure MoveResponse where
  fen : Fen
  moveHistory : List String
  cost : Nat
  newBalance : Nat
deriving DecidableEq, Repr

/-- `requireAuth`: the verified caller id, or an `unauthenticated` error. -/
def requireAuth (auth : Option String) : Except HttpsError String :=
  match auth with
  | none => .error (.unauthenticated "Must be signed in")
  | some uid => .ok uid

/-- `assertNoActiveGame` from `repositories/game.repository.ts`. -/
def assertNoActiveGame (st : ServerState) (uid : String) : Except HttpsError Unit :=
  match st.userActiveGame uid with
  | some _ => .error (.failedPrecondition
      "You already have an active game. Finish or resign it first.")
  | none => .ok ()

-- ─── makeMove (`functions/game.functions.ts`) ────────────────────────────────

/-- `makeMove` from `functions/game.functions.ts`: authenticate, validate the
required arguments, load the game, require status `active` and caller
membership, resolve the preset by name from the Remote Config in effect at
call time, validate/apply the move, read the balance, reject when
`balance < cost`, else append the move record, write the new FEN and history,
and set the balance to `balance - cost`. -/
def makeMove (oracle : ChessOracle) (config : RemoteConfig) (st : ServerState)
    (auth : Option String) (gameId fromSq toSq : String)
    (promotion : Option String) (capturingKing : Bool) :
    Except HttpsError (ServerState × MoveResponse) :=
  match requireAuth auth with
  | .error e => .error e
  | .ok uid =>
    if gameId = "" ∨ fromSq = "" ∨ toSq = "" then
      .error (.invalidArgument "gameId, from, and to are required")
    else
      match st.games gameId with
      | none => .error (.notFound ("Game " ++ gameId ++ " not found"))
      | some game =>
        if game.status ≠ OnlineGameStatus.active then
          .error (.failedPrecondition "Game is not active")
        else if uid ≠ game.whitePlayerId ∧ some uid ≠ game.blackPlayerId then
          .error (.permissionDenied "You are not a player in this game")
        else
          match getPreset config game.presetName with
          | none => .error (.internal ("Unknown preset: " ++ game.presetName))
          | some preset =>
            match validateAndApplyMove oracle game uid fromSq toSq promotion
                capturingKing preset with
            | .error e => .error e
            | .ok result =>
              let balance := getStepBalance st gameId uid
              if balance < result.cost then
                .error (.failedPrecondition
                  ("Insufficient steps: need " ++ toString result.cost ++
                   ", have " ++ toString balance))
              else
                let newMoveHistory := game.moveHistory ++ [result.moveRecord]
                let newBalance := balance - result.cost
                let game' := { game with
                  fen := result.newFen, moveHistory := newMoveHistory }
                let st' := setStepBalance
                  { st with games := updateFun st.games gameId (some game') }
                  gameId uid newBalance
                .ok (st', ⟨result.newFen, newMoveHistory, result.cost, newBalance⟩)

-- ─── endGame (`functions/game.functions.ts`) ─────────────────────────────────

/-- `endGame` from `functions/game.functions.ts`: authenticate, validate the
arguments, load the game, require caller membership (no status check), set
status `completed` (win/draw) or `abandoned`, record the outcome, record
`winnerId = caller` when the outcome is `win`, and clear both players'
`userActiveGame` pointers. -/
def endGame (st : ServerState) (auth : Option String) (gameId : String)
    (outcome : Option GameOutcome) :
    Except HttpsError (ServerState × Unit) :=
  match requireAuth auth with
  | .error e => .error e
  | .ok uid =>
    if gameId = "" ∨ outcome = none then
      .error (.invalidArgument "gameId and outcome are required")
    else
      match outcome with
      | none => .error (.invalidArgument "gameId and outcome are required")
      | some oc =>
        match st.games gameId with
        | none => .error (.notFound ("Game " ++ gameId ++ " not found"))
        | some game =>
          if uid ≠ game.whitePlayerId ∧ some uid ≠ game.blackPlayerId then
            .error (.permissionDenied "You are not a player in this game")
          else
            let finalStatus := if oc = GameOutcome.abandoned
              then OnlineGameStatus.abandoned else OnlineGameStatus.completed
            let uidsToClean := game.whitePlayerId :: game.blackPlayerId.toList
            let game' := { game with
              status := finalStatus,
              outcome := some oc,
              winnerId := if oc = GameOutcome.win then some uid else game.winnerId }
            let st' := { st with
              games := updateFun st.games gameId (some game'),
              userActiveGame := fun u =>
                if u ∈ uidsToClean then none else st.userActiveGame u }
            .ok (st', ())

-- ─── joinGame (`functions/game.functions.ts`) ────────────────────────────────

/-- `joinGame` from `functions/game.functions.ts` (`isEmulator` is the
`FUNCTIONS_EMULATOR` environment flag): the caller joins a waiting game as
black; a game that is full or not `waiting` is rejected with
"Game is already full". -/
def joinGame (st : ServerState) (auth : Option String) (gameId : String)
    (isEmulator : Bool) : Except HttpsError (ServerState × Unit) :=
  match requireAuth auth with
  | .error e => .error e
  | .ok uid =>
    if gameId = "" then
      .error (.invalidArgument "gameId is required")
    else
      match st.games gameId with
      | none => .error (.notFound ("Game " ++ gameId ++ " not found"))
      | some game =>
        if game.blackPlayerId ≠ none ∨ game.status ≠ OnlineGameStatus.waiting then
          .error (.failedPrecondition "Game is already full")
        else if ¬isEmulator ∧ game.whitePlayerId = uid then
          .error (.failedPrecondition "Cannot join your own game")
        else
          match (if ¬isEmulator ∨ game.whitePlayerId ≠ uid
                 then assertNoActiveGame st uid else .ok ()) with
          | .error e => .error e
          | .ok _ =>
            let game' := { game with
              blackPlayerId := some uid, status := OnlineGameStatus.active }
            let st' := { st with
              games := updateFun st.games gameId (some game'),
              userActiveGame := updateFun st.userActiveGame uid (some gameId) }
            .ok (st', ())

-- ─── submitStepDelta (`functions/steps.functions.ts`) ────────────────────────

/-- `submitStepDelta` from `functions/steps.functions.ts`: authenticate,
require a positive integer delta, load the game, require caller membership
and status `active`, enforce the per-call anti-cheat cap, then atomically
increment the per-game balance. -/
def submitStepDelta (config : RemoteConfig) (st : ServerState)
    (auth : Option String) (gameId : String) (delta : Int) :
    Except HttpsError (ServerState × Nat) :=
  match requireAuth auth with
  | .error e => .error e
  | .ok uid =>
    if gameId = "" then
      .error (.invalidArgument "gameId is required")
    else if delta ≤ 0 then
      .error (.invalidArgument "delta must be a positive integer")
    else
      match st.games gameId with
      | none => .error (.notFound ("Game " ++ gameId ++ " not found"))
      | some game =>
        if uid ≠ game.whitePlayerId ∧ some uid ≠ game.blackPlayerId then
          .error (.permissionDenied "You are not a player in this game")
        else if game.status ≠ OnlineGameStatus.active then
          .error (.failedPrecondition "Game is not active")
        else if delta > config.maxStepDeltaPerCall then
          .error (.invalidArgument
            ("delta exceeds maximum allowed per call (" ++
             toString config.maxStepDeltaPerCall ++ ")"))
        else
          let r := atomicIncrementStepBalance st gameId uid delta.toNat
          .ok (r.1, r.2)

-- ─── Leaderboard (`services/leaderboard.service.ts`, trigger) ────────────────

/-- The `leaderboard/{uid}` counters touched by `applyGameResult`. -/
structure Leaderboard where
  wins : String → Nat
  losses : String → Nat
  draws : String → Nat

/-- `incrementWin` from `repositories/leaderboard.repository.ts`. -/
def incrementWin (lb : Leaderboard) (uid : String) : Leaderboard :=
  { lb with wins := updateFun lb.wins uid (lb.wins uid + 1) }

/-- `incrementLoss` from `repositories/leaderboard.repository.ts`. -/
def incrementLoss (lb : Leaderboard) (uid : String) : Leaderboard :=
  { lb with losses := updateFun lb.losses uid (lb.losses uid + 1) }

/-- `incrementDraw` from `repositories/leaderboard.repository.ts`. -/
def incrementDraw (lb : Leaderboard) (uid : String) : Leaderboard :=
  { lb with draws := updateFun lb.draws uid (lb.draws uid + 1) }

/-- `applyGameResult` from `services/leaderboard.service.ts`: no-op for a
game with no second player, no outcome, or outcome `abandoned`; win with a
recorded winner increments the winner's wins and the other player's losses;
draw increments both players' draws. -/
def applyGameResult (lb : Leaderboard) (game : OnlineGame) : Leaderboard :=
  match game.blackPlayerId with
  | none => lb
  | some black =>
    match game.outcome with
    | none => lb
    | some GameOutcome.abandoned => lb
    | some GameOutcome.win =>
      match game.winnerId with
      | some winnerId =>
        let loserId := if winnerId = game.whitePlayerId then black else game.whitePlayerId
        incrementLoss (incrementWin lb winnerId) loserId
      | none => lb
    | some GameOutcome.draw =>
      incrementDraw (incrementDraw lb game.whitePlayerId) black

/-- `onGameCompleted` from `functions/leaderboard.functions.ts`: fires on a
game-document update with the before and after snapshots; acts only when the
status changed and the new status is `completed`. -/
def onGameCompleted (before after : Option OnlineGame) (lb : Leaderboard) :
    Leaderboard :=
  match before, after with
  | some b, some a =>
    if b.status = a.status ∨ a.status ≠ OnlineGameStatus.completed then lb
    else applyGameResult lb a
  | _, _ => lb

-- ─── Interleaving model of the makeMove spend ────────────────────────────────

/-- One in-flight `makeMove` spend, at the granularity of its store round
trips: it has yet to issue the `getStepBalance` read, or it has read and
holds the observed balance while awaiting the `setStepBalance` write, or it
has finished (successfully or with the insufficient-steps rejection). -/
inductive SpendPhase where
  | toRead
  | toCommit (observed : Nat)
  | finished (ok : Bool)
deriving DecidableEq, Repr

/-- One scheduler step of a spend of `cost` against the balance cell, exactly
as `makeMove` performs it: the read phase executes `getStepBalance`; the
commit phase re-checks nothing — it compares the *observed* balance with the
cost and, if sufficient, blindly `setStepBalance`s `observed - cost`. -/
def spendStep (st : ServerState) (gameId uid : String) (cost : Nat) :
    SpendPhase → ServerState × SpendPhase
  | .toRead => (st, .toCommit (getStepBalance st gameId uid))
  | .toCommit observed =>
      if observed < cost then (st, .finished false)
      else (setStepBalance st gameId uid (observed - cost), .finished true)
  | .finished ok => (st, .finished ok)

/-- Run two concurrent spends `a` and `b` under a schedule: `true` steps
spend `a`, `false` steps spend `b`. -/
def runSpendSchedule (gameId uid : String) (costA costB : Nat) :
    List Bool → ServerState × SpendPhase × SpendPhase →
    ServerState × SpendPhase × SpendPhase
  | [], s => s
  | pick :: rest, (st, pa, pb) =>
    if pick then
      let r := spendStep st gameId uid costA pa
      runSpendSchedule gameId uid costA costB rest (r.1, r.2, pb)
    else
      let r := spendStep st gameId uid costB pb
      runSpendSchedule gameId uid costA costB rest (r.1, pa, r.2)

-- ─── Concrete fixtures (the DEFAULT_CONFIG preset values of the backend) ─────

/-- The `Quick` preset values (fast/cheap). -/
def quickValues : PresetValues := ⟨2, 5, 5, 7, 10, 3, 1⟩

/-- The `Normal` preset values (balanced). -/
def normalValues : PresetValues := ⟨50, 80, 80, 100, 150, 30, 10⟩

/-- The `Marathon` preset values (long-form/expensive). -/
def marathonValues : PresetValues := ⟨200, 350, 350, 500, 750, 100, 50⟩

/-- A Remote Config snapshot holding the default preset tables and the
default per-call step cap. -/
def sampleConfig : RemoteConfig := ⟨quickValues, normalValues, marathonValues, 10000⟩

/-- The `Normal` preset as resolved by `getPreset sampleConfig "Normal"`. -/
def normalPreset : StepCostPreset := ⟨"Normal", 50, 80, 80, 100, 150, 30, 10⟩

/-- The `Quick` preset as resolved by `getPreset sampleConfig "Quick"`. -/
def quickPreset : StepCostPreset := ⟨"Quick", 2, 5, 5, 7, 10, 3, 1⟩

/-- A white pawn. -/
def pawnW : Piece := ⟨Color.white, PieceType.p⟩

/-- A black king. -/
def kingB : Piece := ⟨Color.black, PieceType.k⟩

/-- A small position: white pawn on e2, black king on e8, white to move. -/
def sampleFen : Fen := ⟨[("e2", pawnW), ("e8", kingB)], Color.white, "KQkq - 0 1"⟩

/-- An active game between `"w1"` (white) and `"b1"` (black) on the Quick
preset in `fixed` cost mode. -/
def sampleGame : OnlineGame :=
  { id := "g1", whitePlayerId := "w1", blackPlayerId := some "b1",
    fen := sampleFen, moveHistory := [], status := OnlineGameStatus.active,
    presetName := "Quick", costModeName := CostMode.fixed, createdAt := "t0" }

/-- A store holding exactly one game under id `"g1"`, with every balance cell
equal to `bal` and no active-game pointers. -/
def stateOf (game : OnlineGame) (bal : Nat) : ServerState :=
  { games := fun g => if g = "g1" then some game else none,
    balances := fun _ _ => bal,
    userActiveGame := fun _ => none }

/-- An oracle that rejects every move (usable where the oracle is never
consulted). -/
def rejectAllOracle : ChessOracle := fun _ _ _ _ => none

/-- Whether an `Except` result is a success. -/
def isOkB {ε α : Type} (e : Except ε α) : Bool :=
  match e with
  | .ok _ => true
  | .error _ => false

/-- The cost returned by a `makeMove` call, when it succeeded. -/
def costOf (e : Except HttpsError (ServerState × MoveResponse)) : Option Nat :=
  match e with
  | .ok x => some x.2.cost
  | .error _ => none

/-- All-zero leaderboard counters. -/
def zeroLeaderboard : Leaderboard := ⟨fun _ => 0, fun _ => 0, fun _ => 0⟩

-- ─── C9: distance metric and the worked pricing examples ─────────────────────

/-- C9: the cost model's distance is the Manhattan distance for a knight —
equal to 3 on every one of the 8 legal knight-move deltas — and the Chebyshev
distance for every other piece; hence with `distanceCost = 10` in mode
`distance`, pawn e2→e4 costs exactly 20 and knight g1→f3 costs exactly 30,
whatever the preset's base costs are (no base-cost term contributes). -/
theorem knight_manhattan_others_chebyshev_distance_pricing :
    (∀ fromSq toSq : String,
      (((charCodeAt toSq 0 - charCodeAt fromSq 0).natAbs = 1 ∧
        (charCodeAt toSq 1 - charCodeAt fromSq 1).natAbs = 2) ∨
       ((charCodeAt toSq 0 - charCodeAt fromSq 0).natAbs = 2 ∧
        (charCodeAt toSq 1 - charCodeAt fromSq 1).natAbs = 1)) →
      moveDistance PieceType.n fromSq toSq = 3)
    ∧ (∀ (piece : PieceType) (fromSq toSq : String), piece ≠ PieceType.n →
        moveDistance piece fromSq toSq =
          max (charCodeAt toSq 0 - charCodeAt fromSq 0).natAbs
              (charCodeAt toSq 1 - charCodeAt fromSq 1).natAbs)
    ∧ (∀ preset : StepCostPreset, preset.distanceCost = 10 →
        calculateCost preset CostMode.distance PieceType.p "e2" "e4" false = 20 ∧
        calculateCost preset CostMode.distance PieceType.n "g1" "f3" false = 30) := by
  refine ⟨?_, ?_, ?_⟩
  · intro fromSq toSq h
    unfold moveDistance
    rcases h with ⟨h1, h2⟩ | ⟨h1, h2⟩ <;> simp [h1, h2]
  · intro piece fromSq toSq h
    unfold moveDistance
    simp [h]
  · intro preset h
    have hp : moveDistance PieceType.p "e2" "e4" = 2 := by decide
    have hn : moveDistance PieceType.n "g1" "f3" = 3 := by decide
    unfold calculateCost
    rw [hp, hn, h]
    exact ⟨rfl, rfl⟩

/-- C9 witness: the theorem evaluated on knight g1→f3 and on the `Normal`
preset (`distanceCost = 10`). -/
theorem knight_manhattan_others_chebyshev_distance_pricing_witness :
    moveDistance PieceType.n "g1" "f3" = 3 ∧
    (calculateCost normalPreset CostMode.distance PieceType.p "e2" "e4" false = 20 ∧
     calculateCost normalPreset CostMode.distance PieceType.n "g1" "f3" false = 30) :=
  ⟨knight_manhattan_others_chebyshev_distance_pricing.1 "g1" "f3" (by decide),
   knight_manhattan_others_chebyshev_distance_pricing.2.2 normalPreset rfl⟩

-- ─── C4: leaderboard counters fire only on a fresh transition to completed ───

/-- C4: the leaderboard trigger applies the win/loss/draw counters exactly on
a fresh transition into `completed`: an update whose new status is not
`completed` applies nothing, an update that does not change the status
(including re-writing `completed` over `completed`, i.e. repeating the
identical transition) applies nothing, and a genuine status change into
`completed` applies `applyGameResult` once. -/
theorem leaderboard_applied_once_per_completed_transition
    (before after : OnlineGame) (lb : Leaderboard) :
    (after.status ≠ OnlineGameStatus.completed →
      onGameCompleted (some before) (some after) lb = lb)
    ∧ (before.status = after.status →
        onGameCompleted (some before) (some after) lb = lb)
    ∧ (before.status ≠ after.status → after.status = OnlineGameStatus.completed →
        onGameCompleted (some before) (some after) lb = applyGameResult lb after) := by
  refine ⟨?_, ?_, ?_⟩ <;> intro h <;> simp [onGameCompleted, h]
  intro h2
  simp [h, h2]

/-- The sample game after `endGame` with outcome `win` by white. -/
def completedWinGame : OnlineGame :=
  { sampleGame with
    status := OnlineGameStatus.completed,
    outcome := some GameOutcome.win,
    winnerId := some "w1" }

/-- C4 witness: a fresh `active → completed` transition of the sample game
applies the counters; the hypothesis of the status change is discharged on
the concrete statuses. -/
theorem leaderboard_applied_once_per_completed_transition_witness :
    onGameCompleted (some sampleGame) (some completedWinGame) zeroLeaderboard
      = applyGameResult zeroLeaderboard completedWinGame :=
  (leaderboard_applied_once_per_completed_transition sampleGame
      completedWinGame zeroLeaderboard).2.2 (by decide) rfl

-- ─── C5: the ledger spend is a separate check-then-write (double-spend) ──────

/-- C5: the spend inside `makeMove` is NOT one atomic step: it is a
`getStepBalance` read followed, after the check, by a blind `setStepBalance`
write of `observed - cost`. Interleaving two concurrent spends of 60 against
the same starting balance of 100 as read-A, read-B, write-A, write-B makes
BOTH succeed: 120 steps are spent out of a balance of 100 (and the final
balance 40 reflects only one deduction) — the no-double-spend bound claimed
for the ledger is violated by this schedule. -/
theorem makeMove_spend_check_then_write_double_spend :
    (runSpendSchedule "g1" "w1" 60 60 [true, false, true, false]
        (stateOf sampleGame 100, SpendPhase.toRead, SpendPhase.toRead)).2.1
      = SpendPhase.finished true
    ∧ (runSpendSchedule "g1" "w1" 60 60 [true, false, true, false]
        (stateOf sampleGame 100, SpendPhase.toRead, SpendPhase.toRead)).2.2
      = SpendPhase.finished true
    ∧ getStepBalance
        (runSpendSchedule "g1" "w1" 60 60 [true, false, true, false]
          (stateOf sampleGame 100, SpendPhase.toRead, SpendPhase.toRead)).1
        "g1" "w1" = 40
    ∧ 60 + 60 > 100 := by
  refine ⟨rfl, rfl, rfl, by omega⟩

-- ─── C1: insufficient balance rejects the whole move, mutating nothing ───────

/-- C1: a `makeMove` call by a player of an active game whose computed cost
exceeds the caller's current per-game step balance fails with a
`failed-precondition` error whose message states the needed and available
amounts; the call returns only the error — no updated store is produced, so
the board encoding, the move sequence and the balance are untouched (they
are written only in the branch where the spend check has succeeded). -/
theorem makeMove_insufficient_balance_rejected
    (oracle : ChessOracle) (config : RemoteConfig) (st : ServerState)
    (uid gameId fromSq toSq : String) (promotion : Option String)
    (capturingKing : Bool) (game : OnlineGame) (preset : StepCostPreset)
    (result : MoveResult)
    (hgid : gameId ≠ "") (hfrom : fromSq ≠ "") (hto : toSq ≠ "")
    (hgame : st.games gameId = some game)
    (hactive : game.status = OnlineGameStatus.active)
    (hplayer : uid = game.whitePlayerId ∨ some uid = game.blackPlayerId)
    (hpreset : getPreset config game.presetName = some preset)
    (hvalid : validateAndApplyMove oracle game uid fromSq toSq promotion
        capturingKing preset = .ok result)
    (hinsuf : getStepBalance st gameId uid < result.cost) :
    makeMove oracle config st (some uid) gameId fromSq toSq promotion capturingKing
      = .error (.failedPrecondition
          ("Insufficient steps: need " ++ toString result.cost ++
           ", have " ++ toString (getStepBalance st gameId uid))) := by
  have hnp : ¬(uid ≠ game.whitePlayerId ∧ some uid ≠ game.blackPlayerId) := by
    rcases hplayer with h | h
    · exact fun hc => hc.1 h
    · exact fun hc => hc.2 h
  unfold makeMove requireAuth
  simp [hgame, hgid, hfrom, hto, hactive, hpreset, hvalid, hnp, hinsuf]

/-- The result of the king-capture pawn move e2→e4 on the sample game:
the pawn relocated to e4, cost `2 * 2 = 4` (fixed mode, doubled), move
record `"e2e4"`. -/
def kingCaptureResult : MoveResult :=
  ⟨⟨[("e4", pawnW), ("e8", kingB)], Color.white, "KQkq - 0 1"⟩, 4, "e2e4"⟩

/-- C1 witness: the sample game with balance 0 rejects the cost-4 king
capture with the exact need/have message. -/
theorem makeMove_insufficient_balance_rejected_witness :
    makeMove rejectAllOracle sampleConfig (stateOf sampleGame 0) (some "w1")
        "g1" "e2" "e4" none true
      = .error (.failedPrecondition "Insufficient steps: need 4, have 0") :=
  makeMove_insufficient_balance_rejected rejectAllOracle sampleConfig
    (stateOf sampleGame 0) "w1" "g1" "e2" "e4" none true sampleGame
    quickPreset kingCaptureResult (by decide) (by decide) (by decide) rfl rfl
    (Or.inl rfl) rfl rfl (by decide)

-- ─── C10: a successful move appends one record and preserves the frame ───────

/-- Any successful `validateAndApplyMove` returns the move record
`from + to + (promotion ?? '')`. -/
theorem validateAndApplyMove_ok_moveRecord
    (oracle : ChessOracle) (game : OnlineGame) (uid fromSq toSq : String)
    (promotion : Option String) (capturingKing : Bool) (preset : StepCostPreset)
    (r : MoveResult)
    (h : validateAndApplyMove oracle game uid fromSq toSq promotion
        capturingKing preset = .ok r) :
    r.moveRecord = fromSq ++ toSq ++ promotion.getD "" := by
  unfold validateAndApplyMove at h
  simp only [] at h
  split at h
  · split at h
    · simp at h
    · cases h
      rfl
  · split at h
    · simp at h
    · split at h
      · simp at h
      · cases h
        rfl

/-- C10: every successful `makeMove` appends exactly one move record token —
the concatenation `from + to + promotion` — to the END of the move sequence
(the stored history is the old history with one element appended, so every
earlier entry is unchanged) and leaves the game's preset name, cost mode,
status and player ids unchanged. -/
theorem makeMove_appends_one_record_preserves_frame
    (oracle : ChessOracle) (config : RemoteConfig) (st : ServerState)
    (auth : Option String) (gameId fromSq toSq : String)
    (promotion : Option String) (capturingKing : Bool)
    (game : OnlineGame) (st' : ServerState) (resp : MoveResponse)
    (hgame : st.games gameId = some game)
    (hok : makeMove oracle config st auth gameId fromSq toSq promotion
        capturingKing = .ok (st', resp)) :
    ∃ game', st'.games gameId = some game'
      ∧ game'.moveHistory = game.moveHistory ++ [fromSq ++ toSq ++ promotion.getD ""]
      ∧ resp.moveHistory = game.moveHistory ++ [fromSq ++ toSq ++ promotion.getD ""]
      ∧ game'.presetName = game.presetName
      ∧ game'.costModeName = game.costModeName
      ∧ game'.status = game.status
      ∧ game'.whitePlayerId = game.whitePlayerId
      ∧ game'.blackPlayerId = game.blackPlayerId := by
  unfold makeMove at hok
  simp only [] at hok
  split at hok
  · simp at hok
  · rename_i x1 uid huid
    split at hok
    · simp at hok
    · split at hok
      · simp at hok
      · rename_i x2 game2 hgame2
        rw [hgame] at hgame2
        injection hgame2 with hgame2
        subst hgame2
        split at hok
        · simp at hok
        · split at hok
          · simp at hok
          · split at hok
            · simp at hok
            · rename_i x3 preset hpre
              split at hok
              · simp at hok
              · rename_i x4 result hres
                split at hok
                · simp at hok
                · simp only [Except.ok.injEq, Prod.mk.injEq] at hok
                  obtain ⟨hst, hresp⟩ := hok
                  subst hst
                  subst hresp
                  have hrec := validateAndApplyMove_ok_moveRecord oracle game
                    uid fromSq toSq promotion capturingKing preset result hres
                  refine ⟨{ game with
                            fen := result.newFen,
                            moveHistory := game.moveHistory ++ [result.moveRecord] },
                    ?_, ?_, ?_, rfl, rfl, rfl, rfl, rfl⟩
                  · simp [setStepBalance, updateFun]
                  · simp [hrec]
                  · simp [hrec]

/-- C10 witness: the king-capture pawn move on the sample game with
balance 100 appends exactly `"e2e4"` and preserves the frame fields. -/
theorem makeMove_appends_one_record_preserves_frame_witness :
    ∃ game', ((makeMove rejectAllOracle sampleConfig (stateOf sampleGame 100)
          (some "w1") "g1" "e2" "e4" none true).toOption.map Prod.fst
        |>.getD (stateOf sampleGame 100)).games "g1" = some game'
      ∧ game'.moveHistory = sampleGame.moveHistory ++ ["e2" ++ "e4" ++ (none : Option String).getD ""]
      ∧ (⟨kingCaptureResult.newFen, ["e2e4"], 4, 96⟩ : MoveResponse).moveHistory
          = sampleGame.moveHistory ++ ["e2" ++ "e4" ++ (none : Option String).getD ""]
      ∧ game'.presetName = sampleGame.presetName
      ∧ game'.costModeName = sampleGame.costModeName
      ∧ game'.status = sampleGame.status
      ∧ game'.whitePlayerId = sampleGame.whitePlayerId
      ∧ game'.blackPlayerId = sampleGame.blackPlayerId := by
  have h := makeMove_appends_one_record_preserves_frame rejectAllOracle
    sampleConfig (stateOf sampleGame 100) (some "w1") "g1" "e2" "e4" none true
    sampleGame _ ⟨kingCaptureResult.newFen, ["e2e4"], 4, 96⟩ rfl rfl
  exact h

-- ─── C2: terminal statuses block moves/steps/join — but not endGame ──────────

/-- The sample game after reaching the terminal status `completed`. -/
def completedGame : OnlineGame :=
  { sampleGame with status := OnlineGameStatus.completed }

/-- C2 counterexample: the claim says EVERY further operation on a completed
game fails with a precondition error, `endGame` included — but `endGame`
performs no status check: called by a player on the already-completed sample
game it succeeds. -/
theorem endGame_succeeds_on_completed_game :
    isOkB (endGame (stateOf completedGame 0) (some "w1") "g1"
        (some GameOutcome.draw)) = true
    ∧ completedGame.status = OnlineGameStatus.completed := ⟨rfl, rfl⟩

/-- C2 amended: on a game whose status is `completed` or `abandoned`,
`makeMove` and `submitStepDelta` fail with the "Game is not active"
precondition error and `joinGame` fails with the "Game is already full"
precondition error — but `endGame` checks only that the caller is a player
and succeeds even on a terminal game. -/
theorem terminal_status_blocks_move_steps_join_not_endGame
    (oracle : ChessOracle) (config : RemoteConfig) (st : ServerState)
    (uid uid2 gameId fromSq toSq : String) (promotion : Option String)
    (capturingKing isEmulator : Bool) (delta : Int) (oc : GameOutcome)
    (game : OnlineGame)
    (hgame : st.games gameId = some game)
    (hterm : game.status = OnlineGameStatus.completed ∨
             game.status = OnlineGameStatus.abandoned)
    (hgid : gameId ≠ "") (hfrom : fromSq ≠ "") (hto : toSq ≠ "")
    (hdelta : 0 < delta)
    (hplayer : uid = game.whitePlayerId ∨ some uid = game.blackPlayerId) :
    makeMove oracle config st (some uid) gameId fromSq toSq promotion capturingKing
      = .error (.failedPrecondition "Game is not active")
    ∧ submitStepDelta config st (some uid) gameId delta
      = .error (.failedPrecondition "Game is not active")
    ∧ joinGame st (some uid2) gameId isEmulator
      = .error (.failedPrecondition "Game is already full")
    ∧ isOkB (endGame st (some uid) gameId (some oc)) = true := by
  have hnact : game.status ≠ OnlineGameStatus.active := by
    rcases hterm with h | h <;> simp [h]
  have hnwait : game.status ≠ OnlineGameStatus.waiting := by
    rcases hterm with h | h <;> simp [h]
  have hnp : ¬(uid ≠ game.whitePlayerId ∧ some uid ≠ game.blackPlayerId) := by
    rcases hplayer with h | h
    · exact fun hc => hc.1 h
    · exact fun hc => hc.2 h
  have hd2 : ¬(delta ≤ 0) := by omega
  refine ⟨?_, ?_, ?_, ?_⟩
  · unfold makeMove requireAuth
    simp [hgame, hgid, hfrom, hto, hnact]
  · unfold submitStepDelta requireAuth
    simp [hgame, hgid, hd2, hnp, hnact]
  · unfold joinGame requireAuth
    simp [hgame, hgid, hnwait]
  · unfold endGame requireAuth isOkB
    simp [hgame, hgid, hnp]

/-- C2 witness: the amended theorem evaluated on the completed sample game:
the three guarded operations return their precondition errors and `endGame`
succeeds. -/
theorem terminal_status_blocks_move_steps_join_not_endGame_witness :
    makeMove rejectAllOracle sampleConfig (stateOf completedGame 5) (some "w1")
        "g1" "e2" "e4" none false
      = .error (.failedPrecondition "Game is not active")
    ∧ submitStepDelta sampleConfig (stateOf completedGame 5) (some "w1") "g1" 1
      = .error (.failedPrecondition "Game is not active")
    ∧ joinGame (stateOf completedGame 5) (some "z9") "g1" false
      = .error (.failedPrecondition "Game is already full")
    ∧ isOkB (endGame (stateOf completedGame 5) (some "w1") "g1"
        (some GameOutcome.win)) = true :=
  terminal_status_blocks_move_steps_join_not_endGame rejectAllOracle
    sampleConfig (stateOf completedGame 5) "w1" "z9" "g1" "e2" "e4" none
    false false 1 GameOutcome.win completedGame rfl (Or.inl rfl) (by decide)
    (by decide) (by decide) (by decide) (Or.inl rfl)

-- ─── C8: endGame records status/outcome/winner and clears ownership ──────────

/-- C8: `endGame` by a player with an outcome in {win, draw, abandoned} sets
the status to `abandoned` for outcome `abandoned` and to `completed`
otherwise, records the outcome on the game record, records the caller as
winner exactly when the outcome is `win`, and clears both players'
active-game pointers regardless of outcome. -/
theorem endGame_sets_status_outcome_winner_clears_ownership
    (st : ServerState) (uid gameId : String) (oc : GameOutcome)
    (game : OnlineGame)
    (hgame : st.games gameId = some game) (hgid : gameId ≠ "")
    (hplayer : uid = game.whitePlayerId ∨ some uid = game.blackPlayerId)
    (hwin : game.winnerId = none) :
    ∃ st', endGame st (some uid) gameId (some oc) = .ok (st', ())
      ∧ ∃ game', st'.games gameId = some game'
        ∧ game'.status = (if oc = GameOutcome.abandoned
            then OnlineGameStatus.abandoned else OnlineGameStatus.completed)
        ∧ game'.outcome = some oc
        ∧ (game'.winnerId = some uid ↔ oc = GameOutcome.win)
        ∧ st'.userActiveGame game.whitePlayerId = none
        ∧ (∀ b, game.blackPlayerId = some b → st'.userActiveGame b = none) := by
  have hnp : ¬(uid ≠ game.whitePlayerId ∧ some uid ≠ game.blackPlayerId) := by
    rcases hplayer with h | h
    · exact fun hc => hc.1 h
    · exact fun hc => hc.2 h
  unfold endGame requireAuth
  simp only [hgame, hgid]
  rw [if_neg (by simp [hgid])]
  rw [if_neg hnp]
  refine ⟨_, rfl, ?_⟩
  refine ⟨{ game with
            status := if oc = GameOutcome.abandoned
              then OnlineGameStatus.abandoned else OnlineGameStatus.completed,
            outcome := some oc,
            winnerId := if oc = GameOutcome.win then some uid else game.winnerId },
    ?_, rfl, rfl, ?_, ?_, ?_⟩
  · simp [updateFun]
  · cases oc <;> simp [hwin]
  · simp
  · intro b hb
    simp [hb]

/-- C8 witness: ending the sample game with outcome `win` by white. -/
theorem endGame_sets_status_outcome_winner_clears_ownership_witness :
    ∃ st', endGame (stateOf sampleGame 0) (some "w1") "g1"
        (some GameOutcome.win) = .ok (st', ())
      ∧ ∃ game', st'.games "g1" = some game'
        ∧ game'.status = (if GameOutcome.win = GameOutcome.abandoned
            then OnlineGameStatus.abandoned else OnlineGameStatus.completed)
        ∧ game'.outcome = some GameOutcome.win
        ∧ (game'.winnerId = some "w1" ↔ GameOutcome.win = GameOutcome.win)
        ∧ st'.userActiveGame sampleGame.whitePlayerId = none
        ∧ (∀ b, sampleGame.blackPlayerId = some b →
            st'.userActiveGame b = none) :=
  endGame_sets_status_outcome_winner_clears_ownership (stateOf sampleGame 0)
    "w1" "g1" GameOutcome.win sampleGame rfl (by decide) (Or.inl rfl) rfl

-- ─── C3: only the preset NAME is frozen; values resolve at move time ─────────

/-- `sampleConfig` after an edit of the Quick preset's pawn cost (2 → 3). -/
def editedQuickConfig : RemoteConfig :=
  { sampleConfig with presetQuick := { quickValues with pawn := 3 } }

/-- `sampleConfig` after an edit of the Marathon preset (pawn cost → 999),
leaving the Quick preset untouched. -/
def editedMarathonConfig : RemoteConfig :=
  { sampleConfig with presetMarathon := { marathonValues with pawn := 999 } }

/-- C3 counterexample: two `makeMove` runs on the same game and move that
differ ONLY in the preset configuration contents in effect at move time
compute different costs (4 vs 6): the preset values are not frozen into the
Game record — `makeMove` re-reads them from the live config, so a later
preset edit does change the cost of moves in an in-flight game. -/
theorem makeMove_cost_changes_with_move_time_preset_edit :
    costOf (makeMove rejectAllOracle sampleConfig (stateOf sampleGame 100)
        (some "w1") "g1" "e2" "e4" none true) = some 4
    ∧ costOf (makeMove rejectAllOracle editedQuickConfig (stateOf sampleGame 100)
        (some "w1") "g1" "e2" "e4" none true) = some 6
    ∧ (4 : Nat) ≠ 6 := ⟨rfl, rfl, by decide⟩

/-- C3 amended: only the preset NAME is frozen into the Game record at
creation; `makeMove` resolves the preset values by that name from the
configuration in effect at move time, so the outcome depends on the
configuration only through `getPreset config game.presetName`: two runs
whose configurations resolve the frozen name to the same values behave
identically — but configurations that differ at that name may not (later
preset edits do retroactively change cost for in-flight games). -/
theorem makeMove_config_dependence_factors_through_preset_name
    (oracle : ChessOracle) (c1 c2 : RemoteConfig) (st : ServerState)
    (auth : Option String) (gameId fromSq toSq : String)
    (promotion : Option String) (capturingKing : Bool) (game : OnlineGame)
    (hgame : st.games gameId = some game)
    (hpre : getPreset c1 game.presetName = getPreset c2 game.presetName) :
    makeMove oracle c1 st auth gameId fromSq toSq promotion capturingKing
      = makeMove oracle c2 st auth gameId fromSq toSq promotion capturingKing := by
  unfold makeMove
  cases hau : requireAuth auth with
  | error e => rfl
  | ok uid =>
    split
    · rfl
    · rw [hgame]
      simp only []
      split
      · rfl
      · split
        · rfl
        · rw [hpre]

/-- C3 witness: an edit of a DIFFERENT preset (Marathon) leaves a Quick-preset
game's `makeMove` outcome unchanged, by the amended theorem applied at the
sample game. -/
theorem makeMove_config_dependence_factors_through_preset_name_witness :
    makeMove rejectAllOracle sampleConfig (stateOf sampleGame 100) (some "w1")
        "g1" "e2" "e4" none true
      = makeMove rejectAllOracle editedMarathonConfig (stateOf sampleGame 100)
        (some "w1") "g1" "e2" "e4" none true :=
  makeMove_config_dependence_factors_through_preset_name rejectAllOracle
    sampleConfig editedMarathonConfig (stateOf sampleGame 100) (some "w1")
    "g1" "e2" "e4" none true sampleGame rfl (by decide)

-- ─── C6: king capture bypasses the oracle; pricing doubles only in fixed ─────

/-- Looking up a key in an assoc list from which that key was filtered out
finds nothing. -/
theorem find?_key_filter_self (l : List (String × Piece)) (sq : String) :
    (l.filter (fun e => e.1 ≠ sq)).find? (fun e => e.1 = sq) = none := by
  induction l with
  | nil => rfl
  | cons a t ih =>
    by_cases ha : a.1 = sq
    · simp [List.filter_cons, ha, ih]
    · simp [List.filter_cons, ha, List.find?_cons, ih]

/-- Filtering out one key does not change the lookup of a different key. -/
theorem find?_key_filter_other (l : List (String × Piece)) (sq sq' : String)
    (h : sq' ≠ sq) :
    (l.filter (fun e => e.1 ≠ sq)).find? (fun e => e.1 = sq')
      = l.find? (fun e => e.1 = sq') := by
  rw [List.find?_filter]
  congr 1
  funext a
  by_cases ha : a.1 = sq' <;> simp [ha, h]

/-- After `chess.put(piece, sq)` the square `sq` holds exactly that piece. -/
theorem chessGet_chessPut_self (fen : Fen) (piece : Piece) (sq : String) :
    chessGet (chessPut fen piece sq) sq = some piece := by
  simp [chessGet, chessPut, List.find?_cons]

/-- After `chess.remove(sq)` the square `sq` is empty. -/
theorem chessGet_chessRemove_self (fen : Fen) (sq : String) :
    chessGet (chessRemove fen sq) sq = none := by
  simp [chessGet, chessRemove, find?_key_filter_self]

/-- `chess.put(piece, sq)` does not touch any other square beyond clearing
`sq`'s previous occupant. -/
theorem chessGet_chessPut_other (fen : Fen) (piece : Piece) (sq sq' : String)
    (h : sq' ≠ sq) :
    chessGet (chessPut fen piece sq) sq' = chessGet fen sq' := by
  unfold chessGet chessPut
  rw [List.find?_cons_of_neg _ (by simp [Ne.symm h])]
  rw [find?_key_filter_other fen.placement sq sq' h]

/-- `chess.remove(sq)` does not touch any other square. -/
theorem chessGet_chessRemove_other (fen : Fen) (sq sq' : String) (h : sq' ≠ sq) :
    chessGet (chessRemove fen sq) sq' = chessGet fen sq' := by
  unfold chessGet chessRemove
  rw [find?_key_filter_other fen.placement sq sq' h]

/-- C6 counterexample: on a `distance`-mode game the king-capture pawn move
e2→e4 is priced `2` (distance 2 × distanceCost 1) — NOT double the piece's
fixed-mode base cost, which would be `4`. The claim's pricing clause does not
hold for every `isKingCapture` makeMove call. -/
theorem kingCapture_price_not_doubled_in_distance_mode :
    costOf (makeMove rejectAllOracle sampleConfig
        (stateOf { sampleGame with costModeName := CostMode.distance } 100)
        (some "w1") "g1" "e2" "e4" none true) = some 2
    ∧ baseCostFor quickPreset PieceType.p * 2 = 4
    ∧ (2 : Nat) ≠ 4 := ⟨rfl, rfl, by decide⟩

/-- C6 amended: for a king-capture move: an empty origin square fails with an
invalid-argument error; otherwise ordinary legality checking is bypassed (the
result does not depend on the oracle at all), the piece previously at the
destination is removed and the attacker relocated onto it, and the move is
priced by `calculateCost` with the king-capture flag — which doubles the
piece's base cost exactly when the game's cost mode is `fixed` (in
`distance`/`baseDistance` modes the mode's usual formula applies,
undoubled). -/
theorem kingCapture_bypasses_oracle_relocates_attacker
    (oracle1 oracle2 : ChessOracle) (game : OnlineGame)
    (uid fromSq toSq : String) (promotion : Option String)
    (preset : StepCostPreset) :
    (chessGet game.fen fromSq = none →
      validateAndApplyMove oracle1 game uid fromSq toSq promotion true preset
        = .error (.invalidArgument ("No piece at " ++ fromSq)))
    ∧ validateAndApplyMove oracle1 game uid fromSq toSq promotion true preset
        = validateAndApplyMove oracle2 game uid fromSq toSq promotion true preset
    ∧ ∀ attacker, chessGet game.fen fromSq = some attacker → fromSq ≠ toSq →
        validateAndApplyMove oracle1 game uid fromSq toSq promotion true preset
          = .ok ⟨chessPut (chessRemove (chessRemove game.fen toSq) fromSq) attacker toSq,
                 calculateCost preset game.costModeName attacker.ptype fromSq toSq true,
                 fromSq ++ toSq ++ promotion.getD ""⟩
        ∧ chessGet (chessPut (chessRemove (chessRemove game.fen toSq) fromSq)
            attacker toSq) toSq = some attacker
        ∧ chessGet (chessPut (chessRemove (chessRemove game.fen toSq) fromSq)
            attacker toSq) fromSq = none
        ∧ (game.costModeName = CostMode.fixed →
            calculateCost preset game.costModeName attacker.ptype fromSq toSq true
              = baseCostFor preset attacker.ptype * 2) := by
  refine ⟨?_, rfl, ?_⟩
  · intro h
    unfold validateAndApplyMove
    rw [h]
    rfl
  · intro attacker hatt hne
    refine ⟨?_, chessGet_chessPut_self _ _ _, ?_, ?_⟩
    · unfold validateAndApplyMove
      rw [hatt]
      rfl
    · rw [chessGet_chessPut_other _ _ _ _ hne]
      exact chessGet_chessRemove_self _ _
    · intro hmode
      rw [hmode]
      unfold calculateCost
      rfl

/-- C6 witness: the amended theorem evaluated on the sample fixed-mode game:
the pawn's king capture e2→e4 relocates the pawn, empties e2, and costs
`2 * 2 = 4`. -/
theorem kingCapture_bypasses_oracle_relocates_attacker_witness :
    validateAndApplyMove rejectAllOracle sampleGame "w1" "e2" "e4" none true
        quickPreset
      = .ok ⟨chessPut (chessRemove (chessRemove sampleGame.fen "e4") "e2") pawnW "e4",
             calculateCost quickPreset sampleGame.costModeName pawnW.ptype "e2" "e4" true,
             "e2" ++ "e4" ++ (none : Option String).getD ""⟩
    ∧ chessGet (chessPut (chessRemove (chessRemove sampleGame.fen "e4") "e2")
        pawnW "e4") "e4" = some pawnW
    ∧ chessGet (chessPut (chessRemove (chessRemove sampleGame.fen "e4") "e2")
        pawnW "e4") "e2" = none
    ∧ (sampleGame.costModeName = CostMode.fixed →
        calculateCost quickPreset sampleGame.costModeName pawnW.ptype "e2" "e4" true
          = baseCostFor quickPreset pawnW.ptype * 2) :=
  (kingCapture_bypasses_oracle_relocates_attacker rejectAllOracle
      rejectAllOracle sampleGame "w1" "e2" "e4" none quickPreset).2.2
    pawnW rfl (by decide)

-- ─── C7: a missing promotion parameter defaults to queen ─────────────────────

/-- C7: when the moving piece is a pawn whose destination is on the last rank
(rank character '8' or '1') and no promotion piece was supplied, the
promotion handed to the legality oracle defaults to queen, so the move goes
to the oracle exactly as an explicit queen promotion would — a legal
promotion move is never rejected merely because the parameter is missing. -/
theorem missing_promotion_defaults_to_queen
    (oracle : ChessOracle) (game : OnlineGame) (uid fromSq toSq : String)
    (preset : StepCostPreset) (boardPiece : Piece)
    (hget : chessGet (alignTurn game.fen (playerColorOf game uid)) fromSq
      = some boardPiece)
    (hpawn : boardPiece.ptype = PieceType.p)
    (hrank : toSq.data.get? 1 = some '8' ∨ toSq.data.get? 1 = some '1') :
    resolvePromotion boardPiece.ptype toSq none = some "q"
    ∧ ∀ nf, oracle (alignTurn game.fen (playerColorOf game uid)) fromSq toSq
        (some "q") = some nf →
      validateAndApplyMove oracle game uid fromSq toSq none false preset
        = .ok ⟨nf,
               calculateCost preset game.costModeName boardPiece.ptype fromSq toSq false,
               fromSq ++ toSq ++ (none : Option String).getD ""⟩ := by
  have hq : resolvePromotion boardPiece.ptype toSq none = some "q" := by
    unfold resolvePromotion isPromotionMove
    rcases hrank with h | h <;> rw [List.get?_eq_getElem?] at h <;> simp [hpawn, h]
  refine ⟨hq, ?_⟩
  intro nf hnf
  unfold validateAndApplyMove
  simp only [hget]
  rw [hq, hnf]
  rfl

/-- An oracle that accepts exactly the explicit queen promotion, returning
the incoming board unchanged. -/
def queenOnlyOracle : ChessOracle :=
  fun fen _ _ promotion => if promotion = some "q" then some fen else none

/-- A position with a single white pawn on e7, white to move. -/
def promoFen : Fen := ⟨[("e7", pawnW)], Color.white, "- - 0 1"⟩

/-- The sample game with the pawn-on-e7 position. -/
def promoGame : OnlineGame := { sampleGame with fen := promoFen }

/-- C7 witness: moving the e7 pawn to e8 with NO promotion parameter
succeeds against an oracle that only accepts explicit queen promotions. -/
theorem missing_promotion_defaults_to_queen_witness :
    resolvePromotion pawnW.ptype "e8" none = some "q"
    ∧ validateAndApplyMove queenOnlyOracle promoGame "w1" "e7" "e8" none false
        quickPreset
      = .ok ⟨promoFen,
             calculateCost quickPreset promoGame.costModeName pawnW.ptype "e7" "e8" false,
             "e7" ++ "e8" ++ (none : Option String).getD ""⟩ := by
  have h := missing_promotion_defaults_to_queen queenOnlyOracle promoGame
    "w1" "e7" "e8" quickPreset pawnW rfl rfl (Or.inl (by decide))
  exact ⟨h.1, h.2 promoFen rfl⟩

end StepupChess
